/-
Verification of the sectionizer crate's core: the frame matcher and the
temporal clustering step (`Sectionizer::get_sections`), the Hamming metric
(`hamming`), and the orchestration (`Sectionizer::categorize`).

The embedding follows `src/lib.rs`.  Machine integers (`u64`, `u128`) are
modelled as `Nat`: every arithmetic operation performed by the code on these
types (xor, popcount, `idx - idx % 24`, division by 24, `b - a` on a list
sorted ascending) never under- or overflows, so `Nat` with truncated
subtraction agrees with the machine semantics on all representable inputs.
The BK-tree lookup `indextree.find(x, HASH_MAX_DIST)` is abstracted as a
function `find : Frame → List Frame` (the list of hits, first element =
`.first()`), since the claims about `get_sections` quantify over arbitrary
match results.  `HashMap` accumulation is modelled by an association list
built in insertion order (`buildGroups`); non-determinism of the map's
iteration order is modelled by quantifying over permutations of that list.
-/
import Mathlib

/-- `Frame { hash: u128, idx: u64 }` from `src/lib.rs`. -/
structure Frame where
  hash : Nat
  idx : Nat
deriving DecidableEq, Repr

/-- Number of set bits, `u128::count_ones`. -/
def popCount (n : Nat) : Nat :=
  if h : n = 0 then 0 else popCount (n / 2) + n % 2
decreasing_by exact Nat.div_lt_self (Nat.pos_of_ne_zero h) (by decide)

/-- `pub fn hamming(a: &Frame, b: &Frame) -> isize { (a.hash ^ b.hash).count_ones() as isize }`. -/
def hamming (a b : Frame) : Int :=
  (popCount (a.hash ^^^ b.hash) : Int)

/-- Comparator used by `framevec.sort_by(|x, y| x.0.idx.cmp(&y.0.idx))`. -/
def pairIdxLe (p q : Frame × Frame) : Prop :=
  p.1.idx ≤ q.1.idx

instance : DecidableRel pairIdxLe :=
  fun p q => inferInstanceAs (Decidable (p.1.idx ≤ q.1.idx))

instance : IsTotal (Frame × Frame) pairIdxLe :=
  ⟨fun p q => Nat.le_total p.1.idx q.1.idx⟩

instance : IsTrans (Frame × Frame) pairIdxLe :=
  ⟨fun _ _ _ h h' => Nat.le_trans h h'⟩

/-- The matching step of `get_sections` (lines 106–112): for each queried
frame take the first within-radius hit of the BK-tree, keep the pair, then
sort the pairs by queried frame index (stable sort). -/
def matchedPairs (find : Frame → List Frame) (framevec : List Frame) : List (Frame × Frame) :=
  List.insertionSort pairIdxLe
    (framevec.filterMap fun x => ((find x).head?).map fun y => (x, y))

/-- The queried frames of the matched pairs, in sorted order (`frame.0`). -/
def queriedMatches (find : Frame → List Frame) (framevec : List Frame) : List Frame :=
  (matchedPairs find framevec).map Prod.fst

/-- `let baseframe_idx = frame.0.idx - (frame.0.idx % 24); baseframe_idx / 24`:
the one-second bucket of a frame at the hard-coded 24 fps. -/
def groupKey (f : Frame) : Nat :=
  (f.idx - f.idx % 24) / 24

/-- `groups.entry(key).or_default().push(frame.0)` on an association list:
append to the existing bucket, or add a new bucket at the end. -/
def insertGroup : List (Nat × List Frame) → Nat → Frame → List (Nat × List Frame)
  | [], k, f => [(k, [f])]
  | (k', v) :: rest, k, f =>
    if k' = k then (k', v ++ [f]) :: rest else (k', v) :: insertGroup rest k f

/-- The `HashMap<u64, Vec<Frame>>` accumulation loop (lines 114–120),
represented canonically as an association list in key-insertion order. -/
def buildGroups (frames : List Frame) : List (Nat × List Frame) :=
  frames.foldl (fun gs f => insertGroup gs (groupKey f) f) []

/-- `groups.into_iter().filter(|(_, x)| x.len() > 1)` (lines 122–125). -/
def survivors (gs : List (Nat × List Frame)) : List (Nat × List Frame) :=
  gs.filter fun p => decide (1 < p.2.length)

/-- Comparator of `groups.sort_by(|a, b| a.0.cmp(&b.0))`. -/
def keyLe (p q : Nat × List Frame) : Prop :=
  p.1 ≤ q.1

instance : DecidableRel keyLe :=
  fun p q => inferInstanceAs (Decidable (p.1 ≤ q.1))

instance : IsTotal (Nat × List Frame) keyLe :=
  ⟨fun p q => Nat.le_total p.1 q.1⟩

instance : IsTrans (Nat × List Frame) keyLe :=
  ⟨fun _ _ _ h h' => Nat.le_trans h h'⟩

/-- `groups.sort_by(|a, b| a.0.cmp(&b.0))` (line 127). -/
def sortGroups (gs : List (Nat × List Frame)) : List (Nat × List Frame) :=
  List.insertionSort keyLe gs

/-- The run-splitting predicate of `group_by_mut(|(a, _), (b, _)| b - a <= 5)`
(line 130).  On the key-sorted list `b ≥ a`, so `Nat` subtraction agrees
with `u64` subtraction. -/
def gapPred (a b : Nat × List Frame) : Bool :=
  decide (b.1 - a.1 ≤ 5)

/-- `slice::group_by`: split a list into maximal runs of consecutive
elements on which the predicate holds; the predicate is tested on each
adjacent pair, and a `false` starts a new run. -/
def runs (p : α → α → Bool) : List α → List (List α)
  | [] => []
  | [a] => [[a]]
  | a :: b :: l =>
    match runs p (b :: l) with
    | [] => [[a]]
    | r :: rs => if p a b then (a :: r) :: rs else [a] :: r :: rs

/-- The body of the `.map` over runs (lines 131–139): re-sort the run by
key, take the first key (or 0), and fold to obtain `(first, last)`. -/
def runSpan (run : List (Nat × List Frame)) : Nat × Nat :=
  let sorted := List.insertionSort keyLe run
  let first := (sorted.head?.map Prod.fst).getD 0
  sorted.foldl (fun acc x => (acc.1, x.1)) (first, 0)

/-- Lines 122–141 of `get_sections`: filter, sort, split into runs, span. -/
def sectionsOfGroups (gs : List (Nat × List Frame)) : List (Nat × Nat) :=
  (runs gapPred (sortGroups (survivors gs))).map runSpan

/-- `Sectionizer::get_sections` (lines 105–142), with the BK-tree lookup
abstracted as `find`.  Returns the `(start_second, end_second)` pairs. -/
def get_sections (find : Frame → List Frame) (framevec : List Frame) : List (Nat × Nat) :=
  sectionsOfGroups (buildGroups (queriedMatches find framevec))

/-- The key-sorted surviving group list that run formation operates on. -/
def clusterInput (find : Frame → List Frame) (framevec : List Frame) : List (Nat × List Frame) :=
  sortGroups (survivors (buildGroups (queriedMatches find framevec)))

/-- Strict key order on buckets, used to identify sorted lists with distinct
keys. -/
def keyLt (p q : Nat × List Frame) : Prop :=
  p.1 < q.1

instance : IsAntisymm (Nat × List Frame) keyLt :=
  ⟨fun _ _ h h' => (Nat.lt_asymm h h').elim⟩

/-- `RawVideoProfile::RawRgb` (the only profile `categorize` uses). -/
inductive RawVideoProfile where
  | rawRgb
deriving DecidableEq, Repr

/-- The `StreamType::RawVideo { map, profile, tt, sseof }` profile record. -/
structure StreamType where
  map : Nat
  profile : RawVideoProfile
  tt : Option Nat
  sseof : Option Nat
deriving DecidableEq, Repr

/-- The profile built at the top of `categorize`:
`map: 0, profile: RawRgb, tt: Some(300), sseof: if reverse { Some(300) } else { None }`. -/
def profileFor (reverse : Bool) : StreamType :=
  { map := 0, profile := RawVideoProfile.rawRgb, tt := some 300,
    sseof := if reverse then some 300 else none }

/-- The external collaborators of `categorize` (`StateManager` stream
creation/start/stdout and the ffmpeg-decode-and-hash loop
`compute_frame_vec`), modelled as pure per-input functions: `E` is the
error type, `S` the stream handle type, `O` the stdout handle type. -/
structure Env (E S O : Type) where
  create : StreamType → String → Except E S
  start : S → Except E Unit
  take_stdout : S → Except E O
  frames : O → List Frame

/-- `pub struct Sections { target: String, sections: Vec<(u128, u128)> }`. -/
structure Sections where
  target : String
  sections : List (Nat × Nat)
deriving DecidableEq, Repr

/-- `Sectionizer::categorize` (lines 57–103): create and start both streams
(any failure propagates via `?`), take both stdouts, decode both frame
vectors, build one index per file (`tree_from_vec`, abstracted by `bkFind`,
which maps the indexed frame vector and a query to the BK-tree hits), and
compute each file's sections against the other file's index. -/
def categorize {E S O : Type} (env : Env E S O) (bkFind : List Frame → Frame → List Frame)
    (file1 file2 : String) (reverse : Bool) : Except E (Sections × Sections) :=
  Except.bind (env.create (profileFor reverse) file1) fun stream1 =>
    Except.bind (env.create (profileFor reverse) file2) fun stream2 =>
      Except.bind (env.start stream1) fun _ =>
        Except.bind (env.start stream2) fun _ =>
          Except.bind (env.take_stdout stream1) fun o1 =>
            Except.bind (env.take_stdout stream2) fun o2 =>
              Except.ok
                ({ target := file1,
                   sections := get_sections (bkFind (env.frames o2)) (env.frames o1) },
                 { target := file2,
                   sections := get_sections (bkFind (env.frames o1)) (env.frames o2) })

lemma popCount_zero : popCount 0 = 0 := by
  rw [popCount]
  simp

lemma popCount_of_ne {n : Nat} (h : n ≠ 0) : popCount n = popCount (n / 2) + n % 2 := by
  rw [popCount]
  simp [h]

lemma xor_div_two (a b : Nat) : (a ^^^ b) / 2 = a / 2 ^^^ b / 2 := by
  apply Nat.eq_of_testBit_eq
  intro i
  simp [Nat.testBit_div_two, Nat.testBit_xor]

lemma xor_mod_two_le (a b : Nat) : (a ^^^ b) % 2 ≤ a % 2 + b % 2 := by
  have h := Nat.testBit_xor a b 0
  simp only [Nat.testBit_zero] at h
  rcases Nat.mod_two_eq_zero_or_one a with ha | ha <;>
    rcases Nat.mod_two_eq_zero_or_one b with hb | hb <;>
    rcases Nat.mod_two_eq_zero_or_one (a ^^^ b) with hc | hc <;>
    simp [ha, hb, hc] at h ⊢

lemma popCount_xor_le (a b : Nat) : popCount (a ^^^ b) ≤ popCount a + popCount b := by
  induction a using Nat.strong_induction_on generalizing b with
  | _ a ih =>
    rcases eq_or_ne a 0 with rfl | ha
    · simp [popCount_zero]
    rcases eq_or_ne b 0 with rfl | hb
    · simp [popCount_zero]
    rcases eq_or_ne (a ^^^ b) 0 with hz | hz
    · simp [hz, popCount_zero]
    · rw [popCount_of_ne hz, popCount_of_ne ha, popCount_of_ne hb, xor_div_two]
      have h1 : popCount (a / 2 ^^^ b / 2) ≤ popCount (a / 2) + popCount (b / 2) :=
        ih (a / 2) (Nat.div_lt_self (Nat.pos_of_ne_zero ha) one_lt_two) (b / 2)
      have h2 : (a ^^^ b) % 2 ≤ a % 2 + b % 2 := xor_mod_two_le a b
      omega

lemma xor_cancel_mid (a b c : Nat) : (a ^^^ b) ^^^ (b ^^^ c) = a ^^^ c := by
  have h : b ^^^ (b ^^^ c) = c := by
    rw [← Nat.xor_assoc, Nat.xor_self, Nat.zero_xor]
  rw [Nat.xor_assoc, h]

lemma runs_cons (p : α → α → Bool) (b : α) (l : List α) :
    ∃ r rs, runs p (b :: l) = (b :: r) :: rs := by
  induction l generalizing b with
  | nil => exact ⟨[], [], rfl⟩
  | cons c l ih =>
    obtain ⟨r, rs, h⟩ := ih c
    by_cases hp : p b c
    · exact ⟨c :: r, rs, by simp [runs, h, hp]⟩
    · exact ⟨[], (c :: r) :: rs, by simp [runs, h, hp]⟩

lemma runs_flatten (p : α → α → Bool) (l : List α) : (runs p l).flatten = l := by
  induction l with
  | nil => rfl
  | cons a l ih =>
    cases l with
    | nil => rfl
    | cons b l' =>
      obtain ⟨r, rs, h⟩ := runs_cons p b l'
      rw [h] at ih
      simp only [List.flatten_cons, List.cons_append] at ih
      by_cases hp : p a b
      · rw [show runs p (a :: b :: l') = (a :: b :: r) :: rs by simp [runs, h, hp]]
        simp only [List.flatten_cons, List.cons_append, ih]
      · rw [show runs p (a :: b :: l') = [a] :: (b :: r) :: rs by simp [runs, h, hp]]
        simp only [List.flatten_cons, List.cons_append, List.nil_append, ih]

lemma ne_nil_of_mem_runs {p : α → α → Bool} {l : List α} {r : List α}
    (hr : r ∈ runs p l) : r ≠ [] := by
  induction l generalizing r with
  | nil => cases hr
  | cons a l ih =>
    cases l with
    | nil =>
      rcases List.mem_singleton.mp hr with rfl
      exact List.cons_ne_nil _ _
    | cons b l' =>
      obtain ⟨r', rs, h⟩ := runs_cons p b l'
      by_cases hp : p a b
      · rw [show runs p (a :: b :: l') = (a :: b :: r') :: rs by simp [runs, h, hp]] at hr
        rcases List.mem_cons.mp hr with rfl | hr
        · exact List.cons_ne_nil _ _
        · exact ih (by rw [h]; exact List.mem_cons_of_mem _ hr)
      · rw [show runs p (a :: b :: l') = [a] :: (b :: r') :: rs by simp [runs, h, hp]] at hr
        rcases List.mem_cons.mp hr with rfl | hr
        · exact List.cons_ne_nil _ _
        · exact ih (by rw [h]; exact hr)

lemma chain'_of_mem_runs {p : α → α → Bool} {l : List α} {r : List α}
    (hr : r ∈ runs p l) : r.Chain' (fun a b => p a b = true) := by
  induction l generalizing r with
  | nil => cases hr
  | cons a l ih =>
    cases l with
    | nil =>
      rcases List.mem_singleton.mp hr with rfl
      exact List.chain'_singleton _
    | cons b l' =>
      obtain ⟨r', rs, h⟩ := runs_cons p b l'
      have hbr : (b :: r').Chain' (fun a b => p a b = true) :=
        ih (by rw [h]; exact List.mem_cons_self _ _)
      by_cases hp : p a b
      · rw [show runs p (a :: b :: l') = (a :: b :: r') :: rs by simp [runs, h, hp]] at hr
        rcases List.mem_cons.mp hr with rfl | hr
        · exact List.chain'_cons.mpr ⟨hp, hbr⟩
        · exact ih (by rw [h]; exact List.mem_cons_of_mem _ hr)
      · rw [show runs p (a :: b :: l') = [a] :: (b :: r') :: rs by simp [runs, h, hp]] at hr
        rcases List.mem_cons.mp hr with rfl | hr
        · exact List.chain'_singleton _
        · exact ih (by rw [h]; exact hr)

lemma runs_boundary (p : α → α → Bool) (l : List α) :
    (runs p l).Chain' fun r s => ∀ x ∈ r.getLast?, ∀ y ∈ s.head?, p x y = false := by
  induction l with
  | nil => exact List.chain'_nil
  | cons a l ih =>
    cases l with
    | nil => exact List.chain'_singleton _
    | cons b l' =>
      obtain ⟨r', rs, h⟩ := runs_cons p b l'
      rw [h] at ih
      by_cases hp : p a b
      · rw [show runs p (a :: b :: l') = (a :: b :: r') :: rs by simp [runs, h, hp]]
        rw [List.chain'_cons'] at ih ⊢
        refine ⟨?_, ih.2⟩
        intro s hs x hx y hy
        exact ih.1 s hs x (by rw [List.getLast?_cons_cons] at hx; exact hx) y hy
      · rw [show runs p (a :: b :: l') = [a] :: (b :: r') :: rs by simp [runs, h, hp]]
        rw [List.chain'_cons']
        refine ⟨?_, ih⟩
        intro s hs x hx y hy
        simp only [List.head?_cons, Option.mem_def, Option.some.injEq] at hs hx
        subst hs
        simp only [List.getLast?_singleton, Option.mem_def, Option.some.injEq] at hx
        subst hx
        simp only [List.head?_cons, Option.mem_def, Option.some.injEq] at hy
        subst hy
        simpa using hp

lemma sublist_flatten_of_mem {L : List (List α)} {l : List α} (h : l ∈ L) :
    List.Sublist l L.flatten := by
  induction L with
  | nil => cases h
  | cons l₁ L ih =>
    rcases List.mem_cons.mp h with rfl | h
    · exact List.sublist_append_left _ _
    · exact (ih h).trans (List.sublist_append_right _ _)

lemma foldl_span_fst (l : List (Nat × List Frame)) (init : Nat × Nat) :
    (l.foldl (fun acc x => (acc.1, x.1)) init).1 = init.1 := by
  induction l generalizing init with
  | nil => rfl
  | cons x l ih => simpa using ih (init.1, x.1)

lemma foldl_span_snd (l : List (Nat × List Frame)) (init : Nat × Nat)
    {a : Nat × List Frame} (h : l.getLast? = some a) :
    (l.foldl (fun acc x => (acc.1, x.1)) init).2 = a.1 := by
  induction l generalizing init with
  | nil => cases h
  | cons x l ih =>
    cases l with
    | nil =>
      simp only [List.getLast?_singleton, Option.some.injEq] at h
      subst h
      rfl
    | cons y l' =>
      rw [List.getLast?_cons_cons] at h
      simpa using ih (init.1, x.1) (h := h)

lemma runSpan_eq {r : List (Nat × List Frame)} (hs : List.Sorted keyLe r)
    {x y : Nat × List Frame} (hh : r.head? = some x) (hl : r.getLast? = some y) :
    runSpan r = (x.1, y.1) := by
  have hins : List.insertionSort keyLe r = r := hs.insertionSort_eq
  unfold runSpan
  rw [hins]
  cases r with
  | nil => cases hh
  | cons a t =>
    simp only [List.head?_cons, Option.some.injEq] at hh
    subst hh
    refine Prod.ext_iff.mpr ⟨?_, ?_⟩
    · simpa using foldl_span_fst (a :: t) (a.1, 0)
    · simpa using foldl_span_snd (a :: t) (a.1, 0) (h := hl)

lemma keys_insertGroup (gs : List (Nat × List Frame)) (k : Nat) (f : Frame) :
    (insertGroup gs k f).map Prod.fst =
      if k ∈ gs.map Prod.fst then gs.map Prod.fst else gs.map Prod.fst ++ [k] := by
  induction gs with
  | nil => simp [insertGroup]
  | cons p rest ih =>
    obtain ⟨k', v⟩ := p
    by_cases hk : k' = k
    · subst hk
      simp [insertGroup]
    · simp only [insertGroup, if_neg hk, List.map_cons, ih]
      by_cases hm : k ∈ rest.map Prod.fst
      · simp [hm, Ne.symm hk]
      · simp [hm, Ne.symm hk]

lemma nodup_keys_insertGroup {gs : List (Nat × List Frame)} (k : Nat) (f : Frame)
    (hn : (gs.map Prod.fst).Nodup) : ((insertGroup gs k f).map Prod.fst).Nodup := by
  rw [keys_insertGroup]
  by_cases hm : k ∈ gs.map Prod.fst
  · simpa [hm] using hn
  · simpa [hm, List.nodup_append] using hn

lemma nodup_keys_foldl (frames : List Frame) (gs : List (Nat × List Frame))
    (hn : (gs.map Prod.fst).Nodup) :
    (((frames.foldl (fun gs f => insertGroup gs (groupKey f) f) gs)).map Prod.fst).Nodup := by
  induction frames generalizing gs with
  | nil => exact hn
  | cons f frames ih => exact ih _ (nodup_keys_insertGroup _ _ hn)

lemma nodup_keys_buildGroups (frames : List Frame) :
    ((buildGroups frames).map Prod.fst).Nodup :=
  nodup_keys_foldl frames [] List.nodup_nil

lemma pairwise_keyLt_of_sorted {l : List (Nat × List Frame)} (hs : List.Sorted keyLe l)
    (hn : (l.map Prod.fst).Nodup) : l.Pairwise keyLt := by
  have hne : l.Pairwise fun a b => a.1 ≠ b.1 := List.pairwise_map.mp hn
  have hand : l.Pairwise fun a b => keyLe a b ∧ a.1 ≠ b.1 :=
    List.pairwise_and_iff.mpr ⟨hs, hne⟩
  exact hand.imp fun h => Nat.lt_of_le_of_ne h.1 h.2

lemma sortGroups_eq_of_perm {g1 g2 : List (Nat × List Frame)} (hp : g1.Perm g2)
    (hn : (g1.map Prod.fst).Nodup) : sortGroups g1 = sortGroups g2 := by
  have h1 : (sortGroups g1).Perm (sortGroups g2) :=
    (List.perm_insertionSort keyLe g1).trans (hp.trans (List.perm_insertionSort keyLe g2).symm)
  have hs1 : List.Sorted keyLe (sortGroups g1) := List.sorted_insertionSort keyLe g1
  have hs2 : List.Sorted keyLe (sortGroups g2) := List.sorted_insertionSort keyLe g2
  have hn1 : ((sortGroups g1).map Prod.fst).Nodup :=
    (((List.perm_insertionSort keyLe g1).map Prod.fst).nodup_iff).mpr hn
  have hn2 : ((sortGroups g2).map Prod.fst).Nodup :=
    ((h1.map Prod.fst).nodup_iff).mp hn1
  exact List.eq_of_perm_of_sorted h1
    (pairwise_keyLt_of_sorted hs1 hn1) (pairwise_keyLt_of_sorted hs2 hn2)

lemma sorted_clusterInput (find : Frame → List Frame) (fv : List Frame) :
    List.Sorted keyLe (clusterInput find fv) :=
  List.sorted_insertionSort keyLe _

lemma nodup_keys_survivors {gs : List (Nat × List Frame)} (hn : (gs.map Prod.fst).Nodup) :
    ((survivors gs).map Prod.fst).Nodup :=
  List.Pairwise.sublist ((List.filter_sublist gs).map Prod.fst) hn

lemma nodup_keys_clusterInput (find : Frame → List Frame) (fv : List Frame) :
    ((clusterInput find fv).map Prod.fst).Nodup :=
  (((List.perm_insertionSort keyLe _).map Prod.fst).nodup_iff).mpr
    (nodup_keys_survivors (nodup_keys_buildGroups _))

lemma pairwise_keyLt_clusterInput (find : Frame → List Frame) (fv : List Frame) :
    (clusterInput find fv).Pairwise keyLt :=
  pairwise_keyLt_of_sorted (sorted_clusterInput find fv) (nodup_keys_clusterInput find fv)

lemma runSpan_of_mem_runs {S : List (Nat × List Frame)} (hs : List.Sorted keyLe S)
    {p : (Nat × List Frame) → (Nat × List Frame) → Bool} {r : List (Nat × List Frame)}
    (hr : r ∈ runs p S) :
    ∃ hne : r ≠ [],
      runSpan r = ((r.head hne).1, (r.getLast hne).1) ∧
        r.head hne ∈ r ∧ r.getLast hne ∈ r ∧ List.Sorted keyLe r := by
  have hne := ne_nil_of_mem_runs hr
  have hsub : List.Sublist r S := by
    have h := sublist_flatten_of_mem hr
    rwa [runs_flatten] at h
  have hsr : List.Sorted keyLe r := List.Pairwise.sublist hsub hs
  exact ⟨hne, runSpan_eq hsr (List.head?_eq_head hne) (List.getLast?_eq_getLast r hne),
    List.head_mem hne, List.getLast_mem hne, hsr⟩

/-- Claim C1: every Section emitted by `get_sections` satisfies `start ≤ end`,
and the emitted Sections are pairwise non-overlapping (each ends strictly
before the next starts) with strictly increasing start values. -/
theorem get_sections_monotone (find : Frame → List Frame) (fv : List Frame) :
    ((get_sections find fv).Forall fun s => s.1 ≤ s.2) ∧
      (get_sections find fv).Pairwise fun s t => s.1 < t.1 ∧ s.2 < t.1 := by
  have hrw : get_sections find fv = (runs gapPred (clusterInput find fv)).map runSpan := rfl
  have hsort : List.Sorted keyLe (clusterInput find fv) := sorted_clusterInput find fv
  have hlt : (clusterInput find fv).Pairwise keyLt := pairwise_keyLt_clusterInput find fv
  constructor
  · rw [hrw, List.forall_iff_forall_mem]
    intro s hsm
    obtain ⟨r, hr, rfl⟩ := List.mem_map.mp hsm
    obtain ⟨hne, hspan, hhead, hlast, hsr⟩ := runSpan_of_mem_runs hsort hr
    rw [hspan]
    obtain ⟨a, t, rfl⟩ := List.exists_cons_of_ne_nil hne
    simp only [List.head_cons]
    rcases List.mem_cons.mp (List.getLast_mem hne) with heq | hmem
    · rw [heq]
    · exact List.rel_of_sorted_cons hsr _ hmem
  · rw [hrw, List.pairwise_map]
    have hflat : ((runs gapPred (clusterInput find fv)).flatten).Pairwise keyLt := by
      rw [runs_flatten]
      exact hlt
    have hpw := (List.pairwise_flatten.mp hflat).2
    refine List.Pairwise.imp_of_mem ?_ hpw
    intro r s hr hsm H
    obtain ⟨hner, hspanr, hheadr, hlastr, _⟩ := runSpan_of_mem_runs hsort hr
    obtain ⟨hnes, hspans, hheads, hlasts, _⟩ := runSpan_of_mem_runs hsort hsm
    rw [hspanr, hspans]
    exact ⟨H _ hheadr _ hheads, H _ hlastr _ hheads⟩

/-- Claim C5: the distance function `hamming` (popcount of hash xor)
satisfies the metric-space axioms: non-negativity, identity, symmetry and
the triangle inequality. -/
theorem hamming_metric_axioms (a b c : Frame) :
    0 ≤ hamming a b ∧ hamming a a = 0 ∧ hamming a b = hamming b a ∧
      hamming a c ≤ hamming a b + hamming b c := by
  refine ⟨Int.ofNat_nonneg _, ?_, ?_, ?_⟩
  · simp [hamming, Nat.xor_self, popCount_zero]
  · simp [hamming, Nat.xor_comm]
  · have key : a.hash ^^^ c.hash = (a.hash ^^^ b.hash) ^^^ (b.hash ^^^ c.hash) :=
      (xor_cancel_mid _ _ _).symm
    simp only [hamming, key]
    exact_mod_cast popCount_xor_le (a.hash ^^^ b.hash) (b.hash ^^^ c.hash)

/-- Claim C2 counterexample: `get_sections` applies no minimum-duration
filter.  Two matched frames inside second 0 emit the Section `(0, 0)`,
whose span `end − start = 0` does not exceed the spec's
`min_duration_seconds` (10 s in the observed revisions, and `0 ≤ θ` for
every threshold θ). -/
theorem get_sections_no_duration_filter :
    get_sections (fun _ => [⟨0, 0⟩]) [⟨0, 0⟩, ⟨0, 1⟩] = [(0, 0)] ∧ (0 : Nat) - 0 ≤ 10 :=
  ⟨by decide, by decide⟩

/-- Claim C2 (amended): instead of a duration filter, `get_sections` applies
a density filter before runs are formed: every emitted Section's start and
end second are keys of buckets that contain more than one matched frame. -/
theorem get_sections_density (find : Frame → List Frame) (fv : List Frame) :
    ∀ s ∈ get_sections find fv,
      ∃ v w, (s.1, v) ∈ buildGroups (queriedMatches find fv) ∧ 1 < v.length ∧
        (s.2, w) ∈ buildGroups (queriedMatches find fv) ∧ 1 < w.length := by
  intro s hsm
  have hsort : List.Sorted keyLe (clusterInput find fv) := sorted_clusterInput find fv
  obtain ⟨r, hr, rfl⟩ := List.mem_map.mp hsm
  obtain ⟨hne, hspan, hhead, hlast, _⟩ := runSpan_of_mem_runs hsort hr
  have hsub : List.Sublist r (clusterInput find fv) := by
    have h := sublist_flatten_of_mem hr
    rwa [runs_flatten] at h
  have hmem : ∀ x ∈ r, x ∈ survivors (buildGroups (queriedMatches find fv)) := fun x hx =>
    ((List.perm_insertionSort keyLe _).mem_iff).mp (hsub.mem hx)
  have hhead' := List.mem_filter.mp (hmem _ hhead)
  have hlast' := List.mem_filter.mp (hmem _ hlast)
  rw [hspan]
  refine ⟨(r.head hne).2, (r.getLast hne).2, ?_, ?_, ?_, ?_⟩
  · exact hhead'.1
  · exact of_decide_eq_true hhead'.2
  · exact hlast'.1
  · exact of_decide_eq_true hlast'.2

/-- Witness for the amended C2 at a concrete input: the Section `(0, 0)`
emitted for two matched frames in second 0 comes from a bucket with two
frames. -/
theorem get_sections_density_witness :
    ∃ v w, ((0 : Nat), v) ∈ buildGroups (queriedMatches (fun _ => [⟨0, 0⟩]) [⟨0, 0⟩, ⟨0, 1⟩]) ∧
      1 < v.length ∧
      ((0 : Nat), w) ∈ buildGroups (queriedMatches (fun _ => [⟨0, 0⟩]) [⟨0, 0⟩, ⟨0, 1⟩]) ∧
      1 < w.length :=
  get_sections_density (fun _ => [⟨0, 0⟩]) [⟨0, 0⟩, ⟨0, 1⟩] (0, 0) (by decide)

/-- Claim C3 counterexample: two consecutive matched pairs whose frame-index
gap is exactly `max_gap_seconds * fps = 5 * 24 = 120` (queried indices 1 and
121) do NOT start a new run: both fall into the single emitted Section
`(0, 5)`, because the code compares one-second bucket keys with `b - a ≤ 5`
rather than frame-index gaps with `< 120`. -/
theorem gap_at_threshold_same_section :
    get_sections (fun _ => [⟨0, 0⟩]) [⟨0, 0⟩, ⟨0, 1⟩, ⟨0, 121⟩, ⟨0, 122⟩] = [(0, 5)] ∧
      (queriedMatches (fun _ => [⟨0, 0⟩]) [⟨0, 0⟩, ⟨0, 1⟩, ⟨0, 121⟩, ⟨0, 122⟩]).map Frame.idx =
        [0, 1, 121, 122] ∧
      121 - 1 = 5 * 24 :=
  ⟨by decide, by decide, by decide⟩

/-- Claim C3 (amended): runs are formed over the surviving one-second
buckets, and two consecutive buckets with keys `a ≤ b` are placed in the
same run iff `b - a ≤ 5`: inside every run adjacent bucket keys differ by
at most 5 seconds, and at every boundary between adjacent runs the key
difference exceeds 5 seconds. -/
theorem runs_gap_boundary (find : Frame → List Frame) (fv : List Frame) :
    ((runs gapPred (clusterInput find fv)).flatten = clusterInput find fv) ∧
      (∀ r ∈ runs gapPred (clusterInput find fv), r.Chain' fun a b => b.1 - a.1 ≤ 5) ∧
      ((runs gapPred (clusterInput find fv)).Chain' fun r s =>
        ∀ x ∈ r.getLast?, ∀ y ∈ s.head?, ¬ (y.1 - x.1 ≤ 5)) := by
  refine ⟨runs_flatten _ _, ?_, ?_⟩
  · intro r hr
    exact (chain'_of_mem_runs hr).imp fun _ _ h => of_decide_eq_true h
  · refine List.Chain'.imp ?_ (runs_boundary gapPred (clusterInput find fv))
    intro r s h x hx y hy
    exact of_decide_eq_false (h x hx y hy)

/-- Claim C4 counterexample: a single isolated matched pair (queried index
50, one matched pair produced by the matcher) does NOT form its own
one-element run: its one-second bucket has a single frame, so it is
discarded by the `x.len() > 1` filter and no Section is emitted. -/
theorem isolated_match_dropped :
    (matchedPairs (fun _ => [⟨0, 0⟩]) [⟨0, 50⟩]).length = 1 ∧
      get_sections (fun _ => [⟨0, 0⟩]) [⟨0, 50⟩] = [] :=
  ⟨by decide, by decide⟩

/-- Claim C4 (amended): whenever the matcher produces exactly one matched
pair, clustering drops it (its bucket has one element) and `get_sections`
emits no Section at all. -/
theorem single_match_yields_no_sections (find : Frame → List Frame) (fv : List Frame)
    (f : Frame) (h : queriedMatches find fv = [f]) : get_sections find fv = [] := by
  unfold get_sections
  rw [h]
  rfl

/-- Witness for the amended C4 at a concrete input. -/
theorem single_match_yields_no_sections_witness :
    get_sections (fun _ => [⟨0, 0⟩]) [⟨0, 50⟩] = [] :=
  single_match_yields_no_sections (fun _ => [⟨0, 0⟩]) [⟨0, 50⟩] ⟨0, 50⟩ (by decide)

/-- Claim C7: an empty frame sequence flows through matching and clustering
totally, producing an empty pair list and an empty Section list. -/
theorem empty_input_no_sections (find : Frame → List Frame) :
    matchedPairs find [] = [] ∧ get_sections find [] = [] :=
  ⟨rfl, rfl⟩

/-- Claim C10: `get_sections` is deterministic in the iteration order of the
`HashMap` of buckets: running the pipeline on any permutation of the bucket
association list yields exactly the sections of `get_sections`, because the
bucket list is sorted by key (which is duplicate-free) before runs are
formed. -/
theorem get_sections_deterministic (find : Frame → List Frame) (fv : List Frame)
    (gs : List (Nat × List Frame)) (hp : gs.Perm (buildGroups (queriedMatches find fv))) :
    sectionsOfGroups gs = get_sections find fv := by
  unfold get_sections sectionsOfGroups
  have hn : (gs.map Prod.fst).Nodup :=
    ((hp.map Prod.fst).nodup_iff).mpr (nodup_keys_buildGroups _)
  have h1 : (survivors gs).Perm (survivors (buildGroups (queriedMatches find fv))) :=
    hp.filter _
  rw [sortGroups_eq_of_perm h1 (nodup_keys_survivors hn)]

/-- Witness for C10 at a concrete input: presenting the two buckets of a
concrete run in the opposite order yields the same sections. -/
theorem get_sections_deterministic_witness :
    sectionsOfGroups [(5, [⟨0, 121⟩, ⟨0, 122⟩]), (0, [⟨0, 0⟩, ⟨0, 1⟩])] =
      get_sections (fun _ => [⟨0, 0⟩]) [⟨0, 0⟩, ⟨0, 1⟩, ⟨0, 121⟩, ⟨0, 122⟩] :=
  get_sections_deterministic (fun _ => [⟨0, 0⟩]) [⟨0, 0⟩, ⟨0, 1⟩, ⟨0, 121⟩, ⟨0, 122⟩]
    [(5, [⟨0, 121⟩, ⟨0, 122⟩]), (0, [⟨0, 0⟩, ⟨0, 1⟩])] (by decide)

lemma map_fst_filterMap (find : Frame → List Frame) (fv : List Frame) :
    ((fv.filterMap fun x => ((find x).head?).map fun y => (x, y)).map Prod.fst) =
      fv.filter fun x => ((find x).head?).isSome := by
  induction fv with
  | nil => rfl
  | cons a fv ih =>
    cases h : (find a).head? <;>
      simp [List.filterMap_cons, h, List.filter_cons, ih]

/-- Claim C6: the matcher keeps at most one pair per queried frame
occurrence (the queried components form a sub-multiset of the input
sequence), every kept pair stores the first within-radius hit of its
queried frame (so frames whose hit list is empty are dropped), every
queried frame with a non-empty hit list is kept, and the output is ordered
by queried frame index ascending. -/
theorem matchedPairs_spec (find : Frame → List Frame) (fv : List Frame) :
    List.Sorted pairIdxLe (matchedPairs find fv) ∧
      (∀ f : Frame, (queriedMatches find fv).count f ≤ fv.count f) ∧
      (∀ p ∈ matchedPairs find fv, p.1 ∈ fv ∧ (find p.1).head? = some p.2) ∧
      (∀ f ∈ fv, find f ≠ [] → ∃ y, (f, y) ∈ matchedPairs find fv) := by
  refine ⟨List.sorted_insertionSort pairIdxLe _, ?_, ?_, ?_⟩
  · intro f
    have hperm :
        (queriedMatches find fv).Perm
          ((fv.filterMap fun x => ((find x).head?).map fun y => (x, y)).map Prod.fst) :=
      (List.perm_insertionSort pairIdxLe _).map Prod.fst
    rw [hperm.count_eq, map_fst_filterMap]
    exact (List.filter_sublist fv).count_le f
  · intro p hp
    rw [matchedPairs, List.mem_insertionSort] at hp
    obtain ⟨x, hx, hmap⟩ := List.mem_filterMap.mp hp
    obtain ⟨y, hy, heq⟩ := Option.map_eq_some'.mp hmap
    subst heq
    exact ⟨hx, hy⟩
  · intro f hf hne
    cases hh : (find f).head? with
    | none => exact absurd (List.head?_eq_none_iff.mp hh) hne
    | some y =>
      refine ⟨y, ?_⟩
      rw [matchedPairs, List.mem_insertionSort]
      exact List.mem_filterMap.mpr ⟨f, hf, by rw [hh]; rfl⟩

/-- Witness for C6 at a concrete input: the sortedness conjunct
instantiated on a two-frame query sequence. -/
theorem matchedPairs_spec_witness :
    List.Sorted pairIdxLe (matchedPairs (fun _ => [⟨0, 0⟩]) [⟨0, 50⟩, ⟨0, 2⟩]) :=
  (matchedPairs_spec (fun _ => [⟨0, 0⟩]) [⟨0, 50⟩, ⟨0, 2⟩]).1

/-- Claim C8: when creating or starting the external frame source fails for
either file, `categorize` returns exactly that error (the four `?` sites at
lines 72–76): the error propagates unchanged and no Sections value is
produced. -/
theorem categorize_error_propagation {E S O : Type} (env : Env E S O)
    (bkFind : List Frame → Frame → List Frame) (f1 f2 : String) (r : Bool) (e : E) :
    (env.create (profileFor r) f1 = Except.error e →
      categorize env bkFind f1 f2 r = Except.error e) ∧
    (∀ s1, env.create (profileFor r) f1 = Except.ok s1 →
      env.create (profileFor r) f2 = Except.error e →
      categorize env bkFind f1 f2 r = Except.error e) ∧
    (∀ s1 s2, env.create (profileFor r) f1 = Except.ok s1 →
      env.create (profileFor r) f2 = Except.ok s2 →
      env.start s1 = Except.error e →
      categorize env bkFind f1 f2 r = Except.error e) ∧
    (∀ s1 s2, env.create (profileFor r) f1 = Except.ok s1 →
      env.create (profileFor r) f2 = Except.ok s2 →
      env.start s1 = Except.ok () →
      env.start s2 = Except.error e →
      categorize env bkFind f1 f2 r = Except.error e) := by
  refine ⟨?_, ?_, ?_, ?_⟩
  · intro h1
    simp [categorize, h1, Except.bind]
  · intro s1 h1 h2
    simp [categorize, h1, h2, Except.bind]
  · intro s1 s2 h1 h2 h3
    simp [categorize, h1, h2, h3, Except.bind]
  · intro s1 s2 h1 h2 h3 h4
    simp [categorize, h1, h2, h3, h4, Except.bind]

/-- Witness for C8 at a concrete environment whose stream creation fails. -/
theorem categorize_error_propagation_witness :
    categorize (E := Nat) (S := Unit) (O := Unit)
      ⟨fun _ _ => Except.error 7, fun _ => Except.ok (), fun _ => Except.ok (), fun _ => []⟩
      (fun _ _ => []) "a" "b" false = Except.error 7 :=
  (categorize_error_propagation
    ⟨fun _ _ => Except.error 7, fun _ => Except.ok (), fun _ => Except.ok (), fun _ => []⟩
    (fun _ _ => []) "a" "b" false 7).1 rfl

/-- Claim C9: swapping the argument order of `categorize` does not change a
given file's own Section list: when both runs succeed, the Sections
computed for each file agree slot-for-slot (including the target label),
because each file is always queried against the other file's index. -/
theorem categorize_swap_invariant {E S O : Type} (env : Env E S O)
    (bkFind : List Frame → Frame → List Frame) (f1 f2 : String) (r : Bool)
    (sa sb sb' sa' : Sections)
    (h1 : categorize env bkFind f1 f2 r = Except.ok (sa, sb))
    (h2 : categorize env bkFind f2 f1 r = Except.ok (sb', sa')) :
    sa = sa' ∧ sb = sb' := by
  unfold categorize at h1 h2
  cases hc1 : env.create (profileFor r) f1 with
  | error e => rw [hc1] at h1; simp [Except.bind] at h1
  | ok s1 =>
  cases hc2 : env.create (profileFor r) f2 with
  | error e => rw [hc1, hc2] at h1; simp [Except.bind] at h1
  | ok s2 =>
  rw [hc1, hc2] at h1 h2
  simp only [Except.bind] at h1 h2
  cases hs1 : env.start s1 with
  | error e => rw [hs1] at h1; simp [Except.bind] at h1
  | ok u1 =>
  cases hs2 : env.start s2 with
  | error e => rw [hs1, hs2] at h1; simp [Except.bind] at h1
  | ok u2 =>
  rw [hs1, hs2] at h1 h2
  simp only [Except.bind] at h1 h2
  cases ho1 : env.take_stdout s1 with
  | error e => rw [ho1] at h1; simp [Except.bind] at h1
  | ok o1 =>
  cases ho2 : env.take_stdout s2 with
  | error e => rw [ho1, ho2] at h1; simp [Except.bind] at h1
  | ok o2 =>
  rw [ho1, ho2] at h1 h2
  simp only [Except.bind, Except.ok.injEq, Prod.mk.injEq] at h1 h2
  obtain ⟨ha, hb⟩ := h1
  obtain ⟨hb', ha'⟩ := h2
  rw [← ha, ← ha', ← hb, ← hb']
  exact ⟨rfl, rfl⟩

/-- Witness for C9 at a concrete succeeding environment. -/
theorem categorize_swap_invariant_witness :
    ({ target := "a", sections := [] } : Sections) = { target := "a", sections := [] } ∧
      ({ target := "b", sections := [] } : Sections) = { target := "b", sections := [] } :=
  categorize_swap_invariant (E := Nat) (S := Unit) (O := Unit)
    ⟨fun _ _ => Except.ok (), fun _ => Except.ok (), fun _ => Except.ok (), fun _ => []⟩
    (fun _ _ => []) "a" "b" false
    { target := "a", sections := [] } { target := "b", sections := [] }
    { target := "b", sections := [] } { target := "a", sections := [] } rfl rfl
